import Mathlib

/-!
Verification of the hai_detect pipeline (src/annotations/ClinicalTextDocument.py
and src/annotations/Annotation.py) against its natural-language specification.

The Python code is shallowly embedded: raw text is a `List Char`, Python `str`
values appearing in the annotation layer are Lean `String`s, Python dicts used
as fixed lookup tables are association lists, fallible code returns `Except`,
and the two file-writing/XML side effects are modelled with explicit state
(an XML tree datatype and a filesystem record).
-/

set_option maxRecDepth 4000

/-! ### Character-level model of the Python string primitives -/

/-- Whitespace, as used by Python `str.split` and by nltk's
`WhitespaceTokenizer` (regex class backslash-s), restricted to ASCII. -/
def isSpace (c : Char) : Bool :=
  c == ' ' || c == '\t' || c == '\n' || c == '\r' || c == '\x0b' || c == '\x0c'

/-- ASCII lower-casing of one character, the effect of Python `str.lower`. -/
def asciiLower (c : Char) : Char :=
  match c with
  | 'A' => 'a' | 'B' => 'b' | 'C' => 'c' | 'D' => 'd' | 'E' => 'e'
  | 'F' => 'f' | 'G' => 'g' | 'H' => 'h' | 'I' => 'i' | 'J' => 'j'
  | 'K' => 'k' | 'L' => 'l' | 'M' => 'm' | 'N' => 'n' | 'O' => 'o'
  | 'P' => 'p' | 'Q' => 'q' | 'R' => 'r' | 'S' => 's' | 'T' => 't'
  | 'U' => 'u' | 'V' => 'v' | 'W' => 'w' | 'X' => 'x' | 'Y' => 'y'
  | 'Z' => 'z'
  | c => c

/-- ASCII upper-casing of one character. -/
def asciiUpper (c : Char) : Char :=
  match c with
  | 'a' => 'A' | 'b' => 'B' | 'c' => 'C' | 'd' => 'D' | 'e' => 'E'
  | 'f' => 'F' | 'g' => 'G' | 'h' => 'H' | 'i' => 'I' | 'j' => 'J'
  | 'k' => 'K' | 'l' => 'L' | 'm' => 'M' | 'n' => 'N' | 'o' => 'O'
  | 'p' => 'P' | 'q' => 'Q' | 'r' => 'R' | 's' => 'S' | 't' => 'T'
  | 'u' => 'U' | 'v' => 'V' | 'w' => 'W' | 'x' => 'X' | 'y' => 'Y'
  | 'z' => 'Z'
  | c => c

/-- ASCII letter test (a cased character, for the `str.title` model). -/
def isAsciiAlpha (c : Char) : Bool :=
  (decide ('a' ≤ c) && decide (c ≤ 'z')) || (decide ('A' ≤ c) && decide (c ≤ 'Z'))

/-- Worker for `pyTitle`: the Boolean records whether the previous character
was a cased letter (Python title-cases a letter after a non-letter and
lower-cases a letter after a letter). -/
def pyTitleAux : Bool → List Char → List Char
  | _, [] => []
  | prev, c :: cs =>
    (if isAsciiAlpha c then (if prev then asciiLower c else asciiUpper c) else c)
      :: pyTitleAux (isAsciiAlpha c) cs

/-- Model of Python `str.title()` (ASCII). -/
def pyTitle (s : String) : String := ⟨pyTitleAux false s.data⟩

/-- Python slice `s[a:b]` for non-negative bounds. -/
def pySlice (s : String) (a b : Nat) : String := ⟨(s.data.drop a).take (b - a)⟩

/-- Slice of a text at a `(start, stop)` span, as Python `text[start:stop]`. -/
def sliceL (t : List Char) (p : Nat × Nat) : List Char :=
  (t.drop p.1).take (p.2 - p.1)

/-- Worker for `pySplit`; the accumulator holds the current token reversed,
mirroring a left-to-right scan of the string. -/
def pySplitAux : List Char → List Char → List (List Char)
  | [], acc => if acc.isEmpty then [] else [acc.reverse]
  | c :: cs, acc =>
    if isSpace c then
      (if acc.isEmpty then pySplitAux cs [] else acc.reverse :: pySplitAux cs [])
    else pySplitAux cs (c :: acc)

/-- Model of Python `text.split()`: the maximal whitespace-free runs of the
text, in order. -/
def pySplit (l : List Char) : List (List Char) := pySplitAux l []

/-- Worker for the span tokenizer; `i` is the index of the first character of
the remaining text, and the optional accumulator is the start index of the
token currently being scanned. -/
def spanTokAux : List Char → Nat → Option Nat → List (Nat × Nat)
  | [], _, none => []
  | [], i, some s => [(s, i)]
  | c :: cs, i, none =>
    if isSpace c then spanTokAux cs (i + 1) none
    else spanTokAux cs (i + 1) (some i)
  | c :: cs, i, some s =>
    if isSpace c then (s, i) :: spanTokAux cs (i + 1) none
    else spanTokAux cs (i + 1) (some s)

/-- Python `' '.join(words)`. -/
def joinSpace : List (List Char) → List Char
  | [] => []
  | [w] => w
  | w :: ws => w ++ ' ' :: joinSpace ws

/-! ### ClinicalTextDocument.py: the Document Segmenter -/

/-- One sentence record, the dictionary built by
`ClinicalTextDocument.split_sentences`. -/
structure Sentence where
  idx : Nat
  text : List Char
  words : List (List Char)
  word_spans : List (Nat × Nat)
  span : Nat × Nat
deriving DecidableEq, Repr

/-- Model of `ClinicalTextDocument.get_text_spans`: the spans returned by
`WhitespaceTokenizer().span_tokenize(text)`, i.e. the `(start, end)` offsets of
the maximal whitespace-free runs of `text`. -/
def ClinicalTextDocument.get_text_spans (text : List Char) : List (Nat × Nat) :=
  spanTokAux text 0 none

/-- Model of `ClinicalTextDocument.preprocess`: lower-case, split on
whitespace, re-join with single spaces. -/
def ClinicalTextDocument.preprocess (text : List Char) : List Char :=
  joinSpace (pySplit (text.map asciiLower))

/-- The sentence-termination characters of `split_sentences`. -/
def termination_points : List Char := ['.', '!', '?']

/-- The abbreviation exception list of `split_sentences`. -/
def exception_words : List (List Char) :=
  ["dr.".data, "m.d".data, "mr.".data, "ms.".data, "mrs.".data]

/-- The sentence-boundary test of `split_sentences`:
`word[-1] in termination_points and word not in exception_words`.
(`word[-1]` would raise on an empty word; `text.split()` never yields one,
so the `none` branch is unreachable in the pipeline.) -/
def endsSentence (w : List Char) : Bool :=
  match w.getLast? with
  | some c => termination_points.contains c && !(exception_words.contains w)
  | none => false

/-- Builds one sentence dictionary as the loop body of `split_sentences`
does: `span = (current_spans[0][0], current_spans[-1][-1])`, the text is the
single-space join of the buffered words. (The `headD`/`getD` defaults are
unreachable: the buffer is non-empty whenever a sentence is emitted.) -/
def mkSentence (idx : Nat) (ws : List (List Char)) (sps : List (Nat × Nat)) : Sentence :=
  { idx := idx, text := joinSpace ws, words := ws, word_spans := sps,
    span := ((sps.headD (0, 0)).1, (sps.getLast?.getD (0, 0)).2) }

/-- The loop of `split_sentences` over `zip(words, spans)`, carrying the
current sentence buffer and emitting a sentence at each termination word; the
trailing non-empty buffer is flushed after the loop. -/
def splitSentencesAux :
    List (List Char × (Nat × Nat)) → Nat → List (List Char) → List (Nat × Nat) → List Sentence
  | [], idx, curW, curS => if curW.isEmpty then [] else [mkSentence idx curW curS]
  | (w, sp) :: rest, idx, curW, curS =>
    if endsSentence w then
      mkSentence idx (curW ++ [w]) (curS ++ [sp]) :: splitSentencesAux rest (idx + 1) [] []
    else
      splitSentencesAux rest idx (curW ++ [w]) (curS ++ [sp])

/-- Model of `ClinicalTextDocument.split_sentences(text, spans)`. -/
def ClinicalTextDocument.split_sentences (text : List Char) (spans : List (Nat × Nat)) :
    List Sentence :=
  splitSentencesAux ((pySplit text).zip spans) 0 [] []

/-- The document record built by `ClinicalTextDocument.__init__` from raw
text: original-text token spans, the preprocessed copy, and the sentence list
(annotations start empty and are produced by the annotate pass, modelled
separately). -/
structure ClinicalTextDocument where
  raw_text : List Char
  rpt_id : String
  original_spans : List (Nat × Nat)
  preprocessed_text : List Char
  sentences : List Sentence
deriving Repr

/-- Model of `ClinicalTextDocument.__init__(text, rpt_id)`. -/
def mkClinicalTextDocument (text : List Char) (rpt_id : String) : ClinicalTextDocument :=
  { raw_text := text
    rpt_id := rpt_id
    original_spans := ClinicalTextDocument.get_text_spans text
    preprocessed_text := ClinicalTextDocument.preprocess text
    sentences := ClinicalTextDocument.split_sentences
      ( ClinicalTextDocument.preprocess text) ( ClinicalTextDocument.get_text_spans text) }

/-! ### Annotation.py: data model and lookup tables -/

/-- The `Annotation.attributes` dictionary with its constructor defaults. -/
structure AnnAttributes where
  assertion : String := "positive"
  temporality : String := "current"
  anatomy : List String := []
  infection_type : Option String := none
deriving DecidableEq, Repr

/-- The mutable attribute bag of `Annotation.__init__`; fields that Python
initializes to `None` are `Option`s, `datetime` carries whatever timestamp
string the constructor captured. -/
structure Annotation where
  datetime : String := ""
  id : String := ""
  text : Option String := none
  sentence : Option String := none
  sentence_num : Option Nat := none
  span_in_sentence : Option (Nat × Nat) := none
  span_in_document : Option (Nat × Nat) := none
  annotation_type : Option String := none
  markup_category : Option String := none
  attributes : AnnAttributes := {}
  modifier_categories : List String := []
  classification : Option String := none
  annotator : Option String := none
deriving DecidableEq, Repr

/-- A fresh `Annotation()` whose constructor captured timestamp `dt`. -/
def freshAnn (dt : String) : Annotation := { datetime := dt }

/-- The class-level dict `Annotation._annotation_types` mapping pyConText
target categories to eHOST class names. -/
def annotationTypes : List (String × String) :=
  [("organ/space surgical site infection", "Evidence of SSI"),
   ("deep surgical site infection", "Evidence of SSI"),
   ("superficial surgical site infection", "Evidence of SSI"),
   ("negated superficial surgical site infection", "Evidence of SSI"),
   ("urinary tract infection", "Evidence of UTI"),
   ("pneumonia", "Evidence of Pneumonia")]

/-- The nested dict `Annotation._annotation_classifications`:
`annotation_type -> assertion -> label`; `none` models a `KeyError`. -/
def classificationLabel : String → String → Option String
  | "Evidence of SSI", "positive" => some "Positive Evidence of SSI"
  | "Evidence of SSI", "negated" => some "Negated Evidence of SSI"
  | "Evidence of SSI", "probable" => some "Probable Evidence of SSI"
  | "Evidence of SSI", "indication" => some "Indication of SSI"
  | "Evidence of UTI", "positive" => some "Positive Evidence of UTI"
  | "Evidence of UTI", "negated" => some "Negated Evidence of UTI"
  | "Evidence of UTI", "probable" => some "Probable Evidence of UTI"
  | "Evidence of UTI", "indication" => some "Indication of UTI"
  | "Evidence of Pneumonia", "positive" => some "Positive Evidence of Pneumonia"
  | "Evidence of Pneumonia", "negated" => some "Negated Evidence of Pneumonia"
  | "Evidence of Pneumonia", "probable" => some "Probable Evidence of Pneumonia"
  | "Evidence of Pneumonia", "indication" => some "Indication of Pneumonia"
  | _, _ => none

/-- Model of `Annotation.classify()`: a state transformer returning the
updated object and the returned classification string; a `KeyError` (unknown
annotation type or assertion) is `none`, leaving the object unchanged. -/
def Annotation.classify (a : Annotation) : Annotation × Option String :=
  match a.annotation_type with
  | none => (a, none)
  | some atype =>
    match classificationLabel atype a.attributes.assertion with
    | none => (a, none)
    | some base =>
      let c1 := if a.attributes.temporality ≠ "current"
                then base ++ " - " ++ pyTitle a.attributes.temporality else base
      let c2 := if c1 = "Positive Evidence of SSI" ∧ a.attributes.anatomy = []
                then c1 ++ " - No Anatomy" else c1
      ({ a with classification := some c2 }, some c2)

/-! ### Annotation.py: from_markup and its pyConText inputs -/

/-- The read-only view of a pyConText target node (`tag_object`):
`getTagID()`, `getCategory()` (a list, first element used), `getSpan()`. -/
structure TagObject where
  tagID : String
  category : List String
  span : Nat × Nat
deriving DecidableEq, Repr

/-- The read-only view of one pyConText modifier node: `getCategory()` (a
list), `getSpan()`, `getLiteral()`. -/
structure TagModifier where
  category : List String
  span : Nat × Nat
  literal : String
deriving DecidableEq, Repr

/-- One target together with `markup.getModifiers(tag_object)`. -/
structure MarkedTarget where
  tag : TagObject
  modifiers : List TagModifier
deriving DecidableEq, Repr

/-- Substring test: is `sub` a contiguous substring of the second list
(Python `sub in s`). -/
def substrIn (sub : List Char) : List Char → Bool
  | [] => sub.isEmpty
  | c :: cs => sub.isPrefixOf (c :: cs) || substrIn sub cs

/-- Value of `re.search('([a-z/]*) surgical site infection', category).group(1)`
evaluated on the recognized categories that contain the substring
"surgical site infection" (the only values that can reach this regex in
`from_markup`; on "negated superficial ..." the first match of the pattern
starts at "superficial"). -/
def infType : String → Option String := fun c =>
  if c = "organ/space surgical site infection" then some "organ/space"
  else if c = "deep surgical site infection" then some "deep"
  else if c = "superficial surgical site infection" then some "superficial"
  else if c = "negated superficial surgical site infection" then some "superficial"
  else none

/-- The flat list of span endpoints appended by the modifier loop of
`from_markup` (`spans.extend(modifier.getSpan())`). -/
def modSpansList : List TagModifier → List Nat
  | [] => []
  | m :: ms => m.span.1 :: m.span.2 :: modSpansList ms

/-- Python `min` over a non-empty list (the empty case is unreachable:
the target always contributes two endpoints). -/
def pyMin : List Nat → Nat
  | [] => 0
  | x :: xs => xs.foldl Nat.min x

/-- Python `max` over a non-empty list. -/
def pyMax : List Nat → Nat
  | [] => 0
  | x :: xs => xs.foldl Nat.max x

/-- The list comprehension `[mod.getCategory()[0] for mod in modifiers]`;
`mod.getCategory()[0]` on an empty category list is an `IndexError`. -/
def headsE : List TagModifier → Except String (List String)
  | [] => .ok []
  | m :: ms =>
    match m.category.head? with
    | none => .error "IndexError: list index out of range"
    | some c =>
      match headsE ms with
      | .error e => .error e
      | .ok cs => .ok (c :: cs)

/-- The error raised by `from_markup` on a markup category outside
`_annotation_types`. -/
def unrecMsg (c : String) : String :=
  "NotImplementedError: " ++ c ++ " is not a valid annotation type"

/-- The straight-line body of `from_markup` once the three fallible lookups
(target category head, `_annotation_types` membership, modifier category
heads) have succeeded, in source order: identity fields, infection type,
span union, document span, sentence and spanned text, modifier categories,
the assertion decision chain, anatomy for SSI targets, final `classify()`. -/
def fromMarkupCore (a : Annotation) (t : MarkedTarget) (sentence : String)
    (sentence_span : Nat × Nat) (cat atype : String) (mods : List String) : Annotation :=
  let a1 := { a with annotator := some "hai_detect", id := t.tag.tagID,
                     markup_category := some cat, annotation_type := some atype }
  let a2 := if substrIn "surgical site infection".data cat.data
            then { a1 with attributes := { a1.attributes with infection_type := infType cat } }
            else a1
  let spans := t.tag.span.1 :: t.tag.span.2 :: modSpansList t.modifiers
  let sis := (pyMin spans, pyMax spans)
  let a3 := { a2 with
    span_in_sentence := some sis,
    span_in_document := some (sis.1 + sentence_span.1, sis.2 + sentence_span.1),
    sentence := some sentence,
    text := some (pySlice sentence sis.1 sis.2) }
  let a4 := { a3 with modifier_categories := a3.modifier_categories ++ mods }
  let asrt :=
    if cat = "negated superficial surgical site infection" then "negated"
    else if a4.modifier_categories.contains "definite_existence" then "positive"
    else if a4.modifier_categories.contains "definite_negated_existence" then "negated"
    else if a4.modifier_categories.contains "indication" then "indication"
    else if a4.modifier_categories.contains "probable_existence" then "probable"
    else a4.attributes.assertion
  let a5 := { a4 with attributes := { a4.attributes with assertion := asrt } }
  let anat := (t.modifiers.filter
    (fun m => m.category.contains "anatomy" || m.category.contains "surgical site")).map
    (fun m => m.literal)
  let a6 := if substrIn "surgical site infection".data cat.data
            then { a5 with attributes := { a5.attributes with anatomy := anat } }
            else a5
  ( Annotation.classify a6).1

/-- Model of `Annotation.from_markup(tag_object, markup, sentence,
sentence_span)`: resolves the three fallible steps, then runs the
straight-line body. -/
def Annotation.from_markup (a : Annotation) (t : MarkedTarget) (sentence : String)
    (sentence_span : Nat × Nat) : Except String Annotation :=
  match t.tag.category.head? with
  | none => .error "IndexError: list index out of range"
  | some cat =>
    match annotationTypes.lookup cat with
    | none => .error (unrecMsg cat)
    | some atype =>
      match headsE t.modifiers with
      | .error e => .error e
      | .ok mods => .ok (fromMarkupCore a t sentence sentence_span cat atype mods)

/-- Success test for an `Except` result of `from_markup`. -/
def isOkE : Except String Annotation → Bool
  | .ok _ => true
  | .error _ => false

/-! ### ClinicalTextDocument.annotate -/

/-- The inner loop of `ClinicalTextDocument.annotate` over the targets of one
sentence: each target gets a fresh `Annotation()`, `from_markup` runs, the
sentence number is recorded and the annotation appended.  A raised error stops
everything, but annotations appended before it remain (Python mutates
`self.annotations` in place and the exception propagates). -/
def annotateTargetsAux (sent : String) (sp : Nat × Nat) (num : Nat) (dt : String) :
    List MarkedTarget → List Annotation → List Annotation × Option String
  | [], acc => (acc, none)
  | t :: ts, acc =>
    match Annotation.from_markup (freshAnn dt) t sent sp with
    | .error e => (acc, some e)
    | .ok a => annotateTargetsAux sent sp num dt ts (acc ++ [{ a with sentence_num := some num }])

/-- The outer loop of `annotate` over `enumerate(self.sentences)`; each
element pairs a sentence (text and document span) with the marked targets the
external markup engine returned for it. -/
def annotateDocAux (dt : String) :
    List ((String × (Nat × Nat)) × List MarkedTarget) → Nat → List Annotation →
      List Annotation × Option String
  | [], _, acc => (acc, none)
  | (s, ts) :: rest, n, acc =>
    match annotateTargetsAux s.1 s.2 n dt ts acc with
    | (acc2, none) => annotateDocAux dt rest (n + 1) acc2
    | (acc2, some e) => (acc2, some e)

/-- Model of `ClinicalTextDocument.annotate(model)`: the first component is
the final `document.annotations` list, the second the propagated error, if
any. -/
def ClinicalTextDocument.annotate (dt : String)
    (sentences : List ((String × (Nat × Nat)) × List MarkedTarget)) :
    List Annotation × Option String :=
  annotateDocAux dt sentences 0 []

/-! ### Annotation.to_etree, ClinicalTextDocument.to_etree and to_knowtator -/

/-- An XML element: tag, attribute list, optional text, children (the shape
produced through lxml `Element`/`SubElement` in `to_etree`). -/
inductive XmlNode where
  | elem (tag : String) (attrs : List (String × String)) (text : Option String)
      (children : List XmlNode)

/-- Model of `Annotation.to_etree()`: the `annotation` body element and the
`classMention` element.  (Subscripting a `None` span or setting a `None`
mention class would raise in Python; the pipeline always sets both, and the
`getD` defaults stand for those unreachable states.) -/
def Annotation.to_etree (a : Annotation) : XmlNode × XmlNode :=
  let sd := a.span_in_document.getD (0, 0)
  ( XmlNode.elem "annotation" [] none
      [ XmlNode.elem "mention" [("id", a.id)] none [],
        XmlNode.elem "annotator" [("id", "eHOST_2010")] a.annotator [],
        XmlNode.elem "span" [("start", toString sd.1), ("end", toString sd.2)] none [],
        XmlNode.elem "spannedText" [] a.text [],
        XmlNode.elem "creationDate" [] (some a.datetime) [] ],
    XmlNode.elem "classMention" [("id", a.id)] none
      [ XmlNode.elem "mentionClass" [("id", a.annotation_type.getD "")] a.text [] ])

/-- The static eHOST adjudication-status block appended by
`ClinicalTextDocument.to_etree`. -/
def adjudicationStatus : XmlNode :=
  XmlNode.elem "eHOST_Adjudication_Status" [("version", "1.0")] none
    [ XmlNode.elem "Adjudication_Selected_Annotators" [("version", "1.0")] none [],
      XmlNode.elem "Adjudication_Selected_Classes" [("version", "1.0")] none [],
      XmlNode.elem "Adjudication_Others" [] none
        [ XmlNode.elem "CHECK_OVERLAPPED_SPANS" [] (some "false") [],
          XmlNode.elem "CHECK_ATTRIBUTES" [] (some "false") [],
          XmlNode.elem "CHECK_RELATIONSHIP" [] (some "false") [],
          XmlNode.elem "CHECK_CLASS" [] (some "false") [],
          XmlNode.elem "CHECK_COMMENT" [] (some "false") [] ] ]

/-- Model of `ClinicalTextDocument.to_etree()`: the root `annotations`
element with, per annotation, its body and classMention elements in order,
followed by the static adjudication block. -/
def ClinicalTextDocument.to_etree (rpt_id : String) (anns : List Annotation) : XmlNode :=
  XmlNode.elem "annotations" [("textSource", rpt_id ++ ".txt")] none
    (((anns.map (fun a => Annotation.to_etree a)).map (fun p => [p.1, p.2])).flatten
      ++ [adjudicationStatus])

/-- A file system: the set of existing directories and the files written so
far (path paired with the XML document written there). -/
structure FileSystem where
  dirs : List String
  files : List (String × XmlNode)

/-- Model of `ClinicalTextDocument.to_knowtator(outdir)`: raise
`FileNotFoundError` when `outdir` is not an existing directory (before any
file is opened or created), otherwise write the single serialized document at
`outdir/rpt_id + '.txt.knowtator.xml'` and return the new file system and the
output path. -/
def ClinicalTextDocument.to_knowtator (rpt_id : String) (anns : List Annotation)
    (outdir : String) (fs : FileSystem) : Except String (FileSystem × String) :=
  if fs.dirs.contains outdir then
    let outpath := outdir ++ "/" ++ rpt_id ++ ".txt.knowtator.xml"
    .ok ({ fs with files := fs.files ++ [(outpath, ClinicalTextDocument.to_etree rpt_id anns)] },
         outpath)
  else
    .error ("FileNotFoundError: " ++ outdir ++ " is not a directory")

/-! ### Helper lemmas about classify -/

/-- The classify call only writes the `classification` field. -/
lemma classify_fst_shape (a : Annotation) :
    ∃ c, ( Annotation.classify a).1 = { a with classification := c } := by
  unfold Annotation.classify
  split
  · exact ⟨a.classification, rfl⟩
  · split
    · exact ⟨a.classification, rfl⟩
    · exact ⟨some _, rfl⟩

/-- The returned classification does not depend on a previously cached
`classification` value. -/
lemma classify_ignores_cached (a : Annotation) (c : Option String) :
    ( Annotation.classify { a with classification := c }).2 = ( Annotation.classify a).2 := by
  simp only [ Annotation.classify]
  rcases h : a.annotation_type with _ | atype
  · simp [h]
  · simp only [h]
    rcases h2 : classificationLabel atype a.attributes.assertion with _ | base <;> simp [h2]

/-- Field preservation: classify leaves every field other than
`classification` unchanged. -/
lemma classify_preserves (a : Annotation) :
    (( Annotation.classify a).1.attributes = a.attributes)
  ∧ (( Annotation.classify a).1.annotation_type = a.annotation_type)
  ∧ (( Annotation.classify a).1.span_in_sentence = a.span_in_sentence)
  ∧ (( Annotation.classify a).1.span_in_document = a.span_in_document)
  ∧ (( Annotation.classify a).1.text = a.text)
  ∧ (( Annotation.classify a).1.sentence = a.sentence)
  ∧ (( Annotation.classify a).1.sentence_num = a.sentence_num)
  ∧ (( Annotation.classify a).1.markup_category = a.markup_category)
  ∧ (( Annotation.classify a).1.modifier_categories = a.modifier_categories)
  ∧ (( Annotation.classify a).1.datetime = a.datetime)
  ∧ (( Annotation.classify a).1.id = a.id)
  ∧ (( Annotation.classify a).1.annotator = a.annotator) := by
  obtain ⟨c, hc⟩ := classify_fst_shape a
  rw [hc]
  exact ⟨rfl, rfl, rfl, rfl, rfl, rfl, rfl, rfl, rfl, rfl, rfl, rfl⟩

/-- C7: `classify()` is idempotent and side-effect-free with respect to the
attribute snapshot: two successive calls return the same string, the fields
`(annotation_type, assertion, temporality, anatomy)` are unchanged by either
call, and the returned value does not depend on any previously cached
`classification`. -/
theorem classify_idempotent_pure (a : Annotation) :
    ( Annotation.classify (( Annotation.classify a).1)).2 = ( Annotation.classify a).2
  ∧ (( Annotation.classify a).1.annotation_type = a.annotation_type)
  ∧ (( Annotation.classify a).1.attributes = a.attributes)
  ∧ (( Annotation.classify (( Annotation.classify a).1)).1.annotation_type = a.annotation_type)
  ∧ (( Annotation.classify (( Annotation.classify a).1)).1.attributes = a.attributes)
  ∧ ∀ c, ( Annotation.classify { a with classification := c }).2 = ( Annotation.classify a).2 := by
  obtain ⟨c, hc⟩ := classify_fst_shape a
  refine ⟨?_, ?_, ?_, ?_, ?_, fun c => classify_ignores_cached a c⟩
  · rw [hc]; exact classify_ignores_cached a c
  · rw [hc]
  · rw [hc]
  · rw [hc]
    obtain ⟨c2, hc2⟩ := classify_fst_shape { a with classification := c }
    rw [hc2]
  · rw [hc]
    obtain ⟨c2, hc2⟩ := classify_fst_shape { a with classification := c }
    rw [hc2]

/-- An annotation state holding a given attribute snapshot, as used by the
classification rule (all other fields at their constructor defaults). -/
def annSnapshot (atype asrt temp : String) (anat : List String) : Annotation :=
  { annotation_type := some atype,
    attributes := { assertion := asrt, temporality := temp, anatomy := anat } }

/-- C1: on the closed 3 by 4 domain of annotation types and assertions,
`classify()` returns the table label, appends the title-cased temporality for
a non-current temporality, and appends " - No Anatomy" exactly when the label
so far equals "Positive Evidence of SSI" and the anatomy list is empty; a
positive SSI with empty anatomy classifies as
"Positive Evidence of SSI - No Anatomy" while the same target with anatomy
["abdomen"] classifies as "Positive Evidence of SSI". -/
theorem classify_table (atype asrt temp : String) (anat : List String)
    (hA : atype = "Evidence of SSI" ∨ atype = "Evidence of UTI" ∨
          atype = "Evidence of Pneumonia")
    (hs : asrt = "positive" ∨ asrt = "negated" ∨ asrt = "probable" ∨ asrt = "indication") :
    (∃ base, classificationLabel atype asrt = some base ∧
      ( Annotation.classify (annSnapshot atype asrt temp anat)).2 =
        some (
          let l1 := if temp ≠ "current" then base ++ " - " ++ pyTitle temp else base
          if l1 = "Positive Evidence of SSI" ∧ anat = [] then l1 ++ " - No Anatomy" else l1))
  ∧ ( Annotation.classify (annSnapshot "Evidence of SSI" "positive" "current" [])).2 =
      some "Positive Evidence of SSI - No Anatomy"
  ∧ ( Annotation.classify (annSnapshot "Evidence of SSI" "positive" "current" ["abdomen"])).2 =
      some "Positive Evidence of SSI" := by
  refine ⟨?_, by decide, by decide⟩
  rcases hA with rfl | rfl | rfl <;> rcases hs with rfl | rfl | rfl | rfl <;>
    exact ⟨_, rfl, rfl⟩

/-- Witness for C1 at a concrete point of the 3 by 4 domain. -/
theorem classify_table_witness :
    (("Evidence of SSI" = "Evidence of SSI" ∨ "Evidence of SSI" = "Evidence of UTI" ∨
      "Evidence of SSI" = "Evidence of Pneumonia")
   ∧ ("positive" = "positive" ∨ "positive" = "negated" ∨ "positive" = "probable" ∨
      "positive" = "indication"))
  ∧ (∃ base, classificationLabel "Evidence of SSI" "positive" = some base ∧
      ( Annotation.classify (annSnapshot "Evidence of SSI" "positive" "current" ["abdomen"])).2 =
        some (
          let l1 := if "current" ≠ "current" then base ++ " - " ++ pyTitle "current" else base
          if l1 = "Positive Evidence of SSI" ∧ ["abdomen"] = ([] : List String)
          then l1 ++ " - No Anatomy" else l1)) :=
  ⟨⟨Or.inl rfl, Or.inl rfl⟩,
   (classify_table "Evidence of SSI" "positive" "current" ["abdomen"]
      (Or.inl rfl) (Or.inl rfl)).1⟩

/-! ### Helper lemmas about from_markup -/

lemma classify_fst_attributes (a : Annotation) :
    ( Annotation.classify a).1.attributes = a.attributes := (classify_preserves a).1

lemma classify_fst_atype (a : Annotation) :
    ( Annotation.classify a).1.annotation_type = a.annotation_type :=
  (classify_preserves a).2.1

lemma classify_fst_sis (a : Annotation) :
    ( Annotation.classify a).1.span_in_sentence = a.span_in_sentence :=
  (classify_preserves a).2.2.1

lemma classify_fst_sid (a : Annotation) :
    ( Annotation.classify a).1.span_in_document = a.span_in_document :=
  (classify_preserves a).2.2.2.1

/-- A successful `from_markup` call pins down the three fallible lookups and
the result. -/
lemma from_markup_ok_elim (a : Annotation) (t : MarkedTarget) (sent : String)
    (sp : Nat × Nat) (b : Annotation)
    (hw : Annotation.from_markup a t sent sp = .ok b) :
    ∃ cat atype mods, t.tag.category.head? = some cat ∧
      annotationTypes.lookup cat = some atype ∧
      headsE t.modifiers = .ok mods ∧
      b = fromMarkupCore a t sent sp cat atype mods := by
  unfold Annotation.from_markup at hw
  rcases h1 : t.tag.category.head? with _ | cat
  · simp only [h1] at hw
    exact Except.noConfusion hw
  · simp only [h1] at hw
    rcases h2 : annotationTypes.lookup cat with _ | atype
    · simp only [h2] at hw
      exact Except.noConfusion hw
    · simp only [h2] at hw
      rcases h3 : headsE t.modifiers with e | mods
      · simp only [h3] at hw
        exact Except.noConfusion hw
      · simp only [h3] at hw
        cases hw
        exact ⟨cat, atype, mods, rfl, h2, rfl, rfl⟩

/-- The assertion decision table as the specification states it: first match
wins, in priority order, with default `positive`. -/
def assertionDecisionTable (cat : String) (mods : List String) : String :=
  if cat = "negated superficial surgical site infection" then "negated"
  else if mods.contains "definite_existence" then "positive"
  else if mods.contains "definite_negated_existence" then "negated"
  else if mods.contains "indication" then "indication"
  else if mods.contains "probable_existence" then "probable"
  else "positive"

/-- Unfolding of `fromMarkupCore` on a fresh annotation: the result is the
classify call on an intermediate state whose key fields are as listed. -/
lemma fromMarkupCore_fresh_inner (dt : String) (t : MarkedTarget) (sent : String)
    (sp : Nat × Nat) (cat atype : String) (mods : List String) :
    ∃ a6, fromMarkupCore (freshAnn dt) t sent sp cat atype mods = ( Annotation.classify a6).1
      ∧ a6.annotation_type = some atype
      ∧ a6.attributes.assertion = assertionDecisionTable cat mods
      ∧ a6.attributes.temporality = "current"
      ∧ a6.span_in_sentence =
          some (pyMin (t.tag.span.1 :: t.tag.span.2 :: modSpansList t.modifiers),
                pyMax (t.tag.span.1 :: t.tag.span.2 :: modSpansList t.modifiers))
      ∧ a6.span_in_document =
          some (pyMin (t.tag.span.1 :: t.tag.span.2 :: modSpansList t.modifiers) + sp.1,
                pyMax (t.tag.span.1 :: t.tag.span.2 :: modSpansList t.modifiers) + sp.1) := by
  by_cases hss : substrIn "surgical site infection".data cat.data <;>
    simp only [fromMarkupCore, freshAnn, hss, if_true, if_false, ite_true, ite_false] <;>
    exact ⟨_, rfl, rfl, by simp [assertionDecisionTable], rfl, rfl, rfl⟩

/-- C2: the assertion attribute produced by `from_markup` follows the
priority decision table on the markup category and the modifier categories;
in particular the modifier set with both `definite_existence` and
`probable_existence` resolves to `positive`, not `probable`. -/
theorem from_markup_assertion_priority (t : MarkedTarget) (sent : String)
    (sp : Nat × Nat) (dt : String) (a : Annotation) (c : String) (mods : List String)
    (hc : t.tag.category.head? = some c)
    (hm : headsE t.modifiers = .ok mods)
    (hw : Annotation.from_markup (freshAnn dt) t sent sp = .ok a) :
    a.attributes.assertion = assertionDecisionTable c mods
  ∧ (c ≠ "negated superficial surgical site infection" →
      assertionDecisionTable c ["definite_existence", "probable_existence"] = "positive") := by
  obtain ⟨cat, atype, mods2, h1, h2, h3, hb⟩ := from_markup_ok_elim _ t sent sp a hw
  have hcat : cat = c := by rw [hc] at h1; injection h1 with h; exact h.symm
  have hmods : mods2 = mods := by rw [hm] at h3; injection h3 with h; exact h.symm
  subst hcat
  subst hmods
  constructor
  · obtain ⟨a6, he, -, ha, -, -, -⟩ := fromMarkupCore_fresh_inner dt t sent sp cat atype mods2
    rw [hb, he, classify_fst_attributes, ha]
  · intro hne
    simp [assertionDecisionTable, hne]

/-- Concrete pneumonia target used by the C2 witness. -/
def c2Target : MarkedTarget :=
  { tag := { tagID := "0", category := ["pneumonia"], span := (2, 11) },
    modifiers := [{ category := ["definite_existence"], span := (0, 1), literal := "a" },
                  { category := ["probable_existence"], span := (12, 13), literal := "b" }] }

/-- Witness for C2: a pneumonia target with modifier categories
`definite_existence` and `probable_existence` gets assertion `positive`. -/
theorem from_markup_assertion_priority_witness :
    (( Annotation.from_markup (freshAnn "d") c2Target "a pneumonia possible" (0, 20)).toOption.map
        (fun a => a.attributes.assertion))
      = some "positive" := by
  cases hE : Annotation.from_markup (freshAnn "d") c2Target "a pneumonia possible" (0, 20) with
  | error e =>
    have hok : isOkE ( Annotation.from_markup (freshAnn "d") c2Target
        "a pneumonia possible" (0, 20)) = true := by decide
    rw [hE] at hok
    exact Bool.noConfusion hok
  | ok a =>
    have h := (from_markup_assertion_priority c2Target "a pneumonia possible" (0, 20) "d" a
      "pneumonia" ["definite_existence", "probable_existence"] rfl rfl hE).1
    have h2 : a.attributes.assertion = "positive" := by rw [h]; decide
    simp [Except.toOption, h2]

/-! ### Minimum and maximum folds, for the span-union claim -/

lemma foldl_min_le_init (x : Nat) (xs : List Nat) : xs.foldl Nat.min x ≤ x := by
  induction xs generalizing x with
  | nil => exact Nat.le_refl x
  | cons c cs ih => exact Nat.le_trans (ih (Nat.min x c)) (Nat.min_le_left x c)

lemma foldl_min_le_mem {y : Nat} (x : Nat) (xs : List Nat) (hy : y ∈ xs) :
    xs.foldl Nat.min x ≤ y := by
  induction xs generalizing x with
  | nil => cases hy
  | cons c cs ih =>
    rcases List.mem_cons.mp hy with rfl | hy2
    · exact Nat.le_trans (foldl_min_le_init (Nat.min x y) cs) (Nat.min_le_right x y)
    · exact ih (Nat.min x c) hy2

lemma le_foldl_min {b : Nat} (x : Nat) (xs : List Nat) (hb : b ≤ x)
    (h : ∀ y ∈ xs, b ≤ y) : b ≤ xs.foldl Nat.min x := by
  induction xs generalizing x with
  | nil => exact hb
  | cons c cs ih =>
    exact ih (Nat.min x c) (Nat.le_min.mpr ⟨hb, h c (List.mem_cons_self c cs)⟩)
      (fun y hy => h y (List.mem_cons_of_mem c hy))

lemma init_le_foldl_max (x : Nat) (xs : List Nat) : x ≤ xs.foldl Nat.max x := by
  induction xs generalizing x with
  | nil => exact Nat.le_refl x
  | cons c cs ih => exact Nat.le_trans (Nat.le_max_left x c) (ih (Nat.max x c))

lemma mem_le_foldl_max {y : Nat} (x : Nat) (xs : List Nat) (hy : y ∈ xs) :
    y ≤ xs.foldl Nat.max x := by
  induction xs generalizing x with
  | nil => cases hy
  | cons c cs ih =>
    rcases List.mem_cons.mp hy with rfl | hy2
    · exact Nat.le_trans (Nat.le_max_right x y) (init_le_foldl_max (Nat.max x y) cs)
    · exact ih (Nat.max x c) hy2

lemma foldl_max_le {b : Nat} (x : Nat) (xs : List Nat) (hb : x ≤ b)
    (h : ∀ y ∈ xs, y ≤ b) : xs.foldl Nat.max x ≤ b := by
  induction xs generalizing x with
  | nil => exact hb
  | cons c cs ih =>
    exact ih (Nat.max x c) (Nat.max_le.mpr ⟨hb, h c (List.mem_cons_self c cs)⟩)
      (fun y hy => h y (List.mem_cons_of_mem c hy))

lemma mem_modSpansList_fst {m : TagModifier} (ms : List TagModifier) (h : m ∈ ms) :
    m.span.1 ∈ modSpansList ms := by
  induction ms with
  | nil => cases h
  | cons m2 ms2 ih =>
    rcases List.mem_cons.mp h with rfl | h2
    · exact List.mem_cons_self _ _
    · exact List.mem_cons_of_mem _ (List.mem_cons_of_mem _ (ih h2))

lemma mem_modSpansList_snd {m : TagModifier} (ms : List TagModifier) (h : m ∈ ms) :
    m.span.2 ∈ modSpansList ms := by
  induction ms with
  | nil => cases h
  | cons m2 ms2 ih =>
    rcases List.mem_cons.mp h with rfl | h2
    · exact List.mem_cons_of_mem _ (List.mem_cons_self _ _)
    · exact List.mem_cons_of_mem _ (List.mem_cons_of_mem _ (ih h2))

lemma modSpansList_mem_cases {y : Nat} (ms : List TagModifier) (h : y ∈ modSpansList ms) :
    ∃ m ∈ ms, y = m.span.1 ∨ y = m.span.2 := by
  induction ms with
  | nil => cases h
  | cons m2 ms2 ih =>
    rcases List.mem_cons.mp h with rfl | h2
    · exact ⟨m2, List.mem_cons_self _ _, Or.inl rfl⟩
    · rcases List.mem_cons.mp h2 with rfl | h3
      · exact ⟨m2, List.mem_cons_self _ _, Or.inr rfl⟩
      · obtain ⟨m3, hm3, hy⟩ := ih h3
        exact ⟨m3, List.mem_cons_of_mem _ hm3, hy⟩

/-- For well-formed spans, the Python `min` over all interleaved endpoints
equals the minimum over the start points. -/
lemma pyMin_spans_eq (t : MarkedTarget)
    (hts : t.tag.span.1 ≤ t.tag.span.2)
    (hwf : ∀ m ∈ t.modifiers, m.span.1 ≤ m.span.2) :
    pyMin (t.tag.span.1 :: t.tag.span.2 :: modSpansList t.modifiers)
      = pyMin (t.tag.span.1 :: t.modifiers.map (fun m => m.span.1)) := by
  apply Nat.le_antisymm
  · apply le_foldl_min _ _ (foldl_min_le_init _ _)
    intro y hy
    obtain ⟨m, hm, hy2⟩ := List.mem_map.mp hy
    refine foldl_min_le_mem _ _ ?_
    exact hy2 ▸ List.mem_cons_of_mem _ (mem_modSpansList_fst _ hm)
  · apply le_foldl_min _ _ (foldl_min_le_init _ _)
    intro y hy
    rcases List.mem_cons.mp hy with rfl | hy2
    · exact Nat.le_trans (foldl_min_le_init _ _) hts
    · obtain ⟨m, hm, hy3⟩ := modSpansList_mem_cases _ hy2
      have hmem : m.span.1 ∈ t.modifiers.map (fun m => m.span.1) :=
        List.mem_map.mpr ⟨m, hm, rfl⟩
      rcases hy3 with rfl | rfl
      · exact foldl_min_le_mem _ _ hmem
      · exact Nat.le_trans (foldl_min_le_mem _ _ hmem) (hwf m hm)

/-- For well-formed spans, the Python `max` over all interleaved endpoints
equals the maximum over the end points. -/
lemma pyMax_spans_eq (t : MarkedTarget)
    (hts : t.tag.span.1 ≤ t.tag.span.2)
    (hwf : ∀ m ∈ t.modifiers, m.span.1 ≤ m.span.2) :
    pyMax (t.tag.span.1 :: t.tag.span.2 :: modSpansList t.modifiers)
      = pyMax (t.tag.span.2 :: t.modifiers.map (fun m => m.span.2)) := by
  apply Nat.le_antisymm
  · refine foldl_max_le _ _ ?_ ?_
    · exact Nat.le_trans hts (init_le_foldl_max _ _)
    · intro y hy
      rcases List.mem_cons.mp hy with rfl | hy2
      · exact init_le_foldl_max _ _
      · obtain ⟨m, hm, hy3⟩ := modSpansList_mem_cases _ hy2
        have hmem : m.span.2 ∈ t.modifiers.map (fun m => m.span.2) :=
          List.mem_map.mpr ⟨m, hm, rfl⟩
        rcases hy3 with rfl | rfl
        · exact Nat.le_trans (hwf m hm) (mem_le_foldl_max _ _ hmem)
        · exact mem_le_foldl_max _ _ hmem
  · refine foldl_max_le _ _ ?_ ?_
    · exact mem_le_foldl_max _ _ (List.mem_cons_self _ _)
    · intro y hy
      obtain ⟨m, hm, hy2⟩ := List.mem_map.mp hy
      refine mem_le_foldl_max _ _ ?_
      exact hy2 ▸ List.mem_cons_of_mem _ (mem_modSpansList_snd _ hm)

/-- C4: the span in the sentence computed by `from_markup` is the union
(minimum start, maximum end) over the target span and all associated modifier
spans, and the span in the document is that span shifted by the sentence's
start offset. -/
theorem from_markup_span_union (t : MarkedTarget) (sent : String) (sp : Nat × Nat)
    (dt : String) (a : Annotation)
    (hw : Annotation.from_markup (freshAnn dt) t sent sp = .ok a)
    (hts : t.tag.span.1 ≤ t.tag.span.2)
    (hwf : ∀ m ∈ t.modifiers, m.span.1 ≤ m.span.2) :
    a.span_in_sentence =
      some (pyMin (t.tag.span.1 :: t.modifiers.map (fun m => m.span.1)),
            pyMax (t.tag.span.2 :: t.modifiers.map (fun m => m.span.2)))
  ∧ a.span_in_document =
      some (pyMin (t.tag.span.1 :: t.modifiers.map (fun m => m.span.1)) + sp.1,
            pyMax (t.tag.span.2 :: t.modifiers.map (fun m => m.span.2)) + sp.1) := by
  obtain ⟨cat, atype, mods, h1, h2, h3, hb⟩ := from_markup_ok_elim _ t sent sp a hw
  obtain ⟨a6, he, -, -, -, hsis, hsid⟩ := fromMarkupCore_fresh_inner dt t sent sp cat atype mods
  rw [hb, he]
  constructor
  · rw [classify_fst_sis, hsis, pyMin_spans_eq t hts hwf, pyMax_spans_eq t hts hwf]
  · rw [classify_fst_sid, hsid, pyMin_spans_eq t hts hwf, pyMax_spans_eq t hts hwf]

/-- Concrete target with one modifier used by the C4 witness. -/
def c4Target : MarkedTarget :=
  { tag := { tagID := "0", category := ["pneumonia"], span := (3, 9) },
    modifiers := [{ category := ["definite_existence"], span := (2, 5), literal := "x" }] }

/-- Witness for C4: a concrete target with one modifier. -/
theorem from_markup_span_union_witness :
    (( Annotation.from_markup (freshAnn "d") c4Target "a pneumonia here" (5, 30)).toOption.map
        (fun a => (a.span_in_sentence, a.span_in_document)))
      = some (some (2, 9), some (7, 14)) := by
  cases hE : Annotation.from_markup (freshAnn "d") c4Target "a pneumonia here" (5, 30) with
  | error e =>
    have hok : isOkE ( Annotation.from_markup (freshAnn "d") c4Target
        "a pneumonia here" (5, 30)) = true := by decide
    rw [hE] at hok
    exact Bool.noConfusion hok
  | ok a =>
    obtain ⟨hs1, hs2⟩ := from_markup_span_union c4Target "a pneumonia here" (5, 30) "d" a hE
      (by decide) (by decide)
    have h2 : a.span_in_sentence = some (2, 9) := by rw [hs1]; decide
    have h3 : a.span_in_document = some (7, 14) := by rw [hs2]; decide
    simp [Except.toOption, h2, h3]

/-! ### Helper lemmas for the temporality invariant -/

/-- Any value of the category-to-type table is one of the three evidence
class names. -/
lemma lookup_annotationTypes_values {c v : String}
    (h : annotationTypes.lookup c = some v) :
    v = "Evidence of SSI" ∨ v = "Evidence of UTI" ∨ v = "Evidence of Pneumonia" := by
  simp only [annotationTypes, List.lookup] at h
  repeat' split at h
  all_goals simp_all

/-- The decision table only produces the four assertion values. -/
lemma assertionDecisionTable_values (cat : String) (mods : List String) :
    assertionDecisionTable cat mods = "positive" ∨
    assertionDecisionTable cat mods = "negated" ∨
    assertionDecisionTable cat mods = "probable" ∨
    assertionDecisionTable cat mods = "indication" := by
  unfold assertionDecisionTable
  split_ifs <;> simp

/-- The classification table is total on the three types and four
assertions. -/
lemma classificationLabel_total {v s : String}
    (hv : v = "Evidence of SSI" ∨ v = "Evidence of UTI" ∨ v = "Evidence of Pneumonia")
    (hs : s = "positive" ∨ s = "negated" ∨ s = "probable" ∨ s = "indication") :
    ∃ base, classificationLabel v s = some base := by
  rcases hv with rfl | rfl | rfl <;> rcases hs with rfl | rfl | rfl | rfl <;> exact ⟨_, rfl⟩

/-- With current temporality, the cached classification is the base label,
possibly with the No Anatomy suffix, and nothing else. -/
lemma classify_current_shape (a : Annotation) (atype base : String)
    (h1 : a.annotation_type = some atype)
    (h2 : classificationLabel atype a.attributes.assertion = some base)
    (h3 : a.attributes.temporality = "current") :
    ( Annotation.classify a).1.classification = some base ∨
    ( Annotation.classify a).1.classification = some (base ++ " - No Anatomy") := by
  unfold Annotation.classify
  simp only [h1, h2, h3]
  by_cases h4 : base = "Positive Evidence of SSI" ∧ a.attributes.anatomy = []
  · right; simp [h4]
  · left; simp [h4]

/-- The invariant C10 asserts of every produced annotation: temporality is
still the constructor default and the classification carries no temporality
suffix (it is the bare table label, possibly with the No Anatomy suffix). -/
def classifiedCurrent (x : Annotation) : Prop :=
  x.attributes.temporality = "current" ∧
  ∃ atype base, x.annotation_type = some atype ∧
    classificationLabel atype x.attributes.assertion = some base ∧
    (x.classification = some base ∨ x.classification = some (base ++ " - No Anatomy"))

/-- Every annotation successfully produced by `from_markup` from a fresh
`Annotation()` satisfies the C10 invariant. -/
lemma from_markup_classifiedCurrent (t : MarkedTarget) (sent : String) (sp : Nat × Nat)
    (dt : String) (a : Annotation)
    (hw : Annotation.from_markup (freshAnn dt) t sent sp = .ok a) :
    classifiedCurrent a := by
  obtain ⟨cat, atype, mods, h1, h2, h3, hb⟩ := from_markup_ok_elim _ t sent sp a hw
  obtain ⟨a6, he, hat, has, htemp, -, -⟩ := fromMarkupCore_fresh_inner dt t sent sp cat atype mods
  obtain ⟨base, hbase⟩ := classificationLabel_total (lookup_annotationTypes_values h2)
    (has ▸ assertionDecisionTable_values cat mods)
  constructor
  · rw [hb, he, classify_fst_attributes, htemp]
  · refine ⟨atype, base, ?_, ?_, ?_⟩
    · rw [hb, he, classify_fst_atype, hat]
    · rw [hb, he, classify_fst_attributes]
      exact hbase
    · rw [hb, he]
      exact classify_current_shape a6 atype base hat hbase htemp

/-- The C10 invariant survives setting the sentence number. -/
lemma classifiedCurrent_set_num (a : Annotation) (n : Nat)
    (h : classifiedCurrent a) : classifiedCurrent { a with sentence_num := some n } := h

/-- The inner annotate loop only appends annotations satisfying the C10
invariant. -/
lemma annotateTargetsAux_classifiedCurrent (sent : String) (sp : Nat × Nat) (num : Nat)
    (dt : String) :
    ∀ (ts : List MarkedTarget) (acc : List Annotation),
      (∀ x ∈ acc, classifiedCurrent x) →
      ∀ x ∈ (annotateTargetsAux sent sp num dt ts acc).1, classifiedCurrent x := by
  intro ts
  induction ts with
  | nil => intro acc hacc x hx; exact hacc x hx
  | cons t ts ih =>
    intro acc hacc x hx
    simp only [annotateTargetsAux] at hx
    rcases hE : Annotation.from_markup (freshAnn dt) t sent sp with e | a <;>
      simp only [hE] at hx
    · exact hacc x hx
    · refine ih _ ?_ x hx
      intro y hy
      rcases List.mem_append.mp hy with hy2 | hy2
      · exact hacc y hy2
      · rcases List.mem_singleton.mp hy2 with rfl
        exact classifiedCurrent_set_num a num (from_markup_classifiedCurrent t sent sp dt a hE)

/-- The outer annotate loop only accumulates annotations satisfying the C10
invariant. -/
lemma annotateDocAux_classifiedCurrent (dt : String) :
    ∀ (pairs : List ((String × (Nat × Nat)) × List MarkedTarget)) (n : Nat)
      (acc : List Annotation),
      (∀ x ∈ acc, classifiedCurrent x) →
      ∀ x ∈ (annotateDocAux dt pairs n acc).1, classifiedCurrent x := by
  intro pairs
  induction pairs with
  | nil => intro n acc hacc x hx; exact hacc x hx
  | cons p rest ih =>
    intro n acc hacc x hx
    simp only [annotateDocAux] at hx
    rcases hT : annotateTargetsAux p.1.1 p.1.2 n dt p.2 acc with ⟨acc2, oe⟩
    have hacc2 : ∀ y ∈ acc2, classifiedCurrent y := by
      intro y hy
      have := annotateTargetsAux_classifiedCurrent p.1.1 p.1.2 n dt p.2 acc hacc y
      rw [hT] at this
      exact this hy
    rcases oe with _ | e
    · rw [hT] at hx
      exact ih (n + 1) acc2 hacc2 x hx
    · rw [hT] at hx
      exact hacc2 x hx

/-- C10: the annotation pass never sets temporality: every annotation built
by `from_markup` from a fresh `Annotation()` keeps the constructor default
`current`, every annotation produced through `annotate` does too, and in
consequence its classification never carries a temporality suffix: it is
exactly the base table label, possibly followed by " - No Anatomy". -/
theorem annotate_temporality_current :
    (∀ (t : MarkedTarget) (sent : String) (sp : Nat × Nat) (dt : String) (a : Annotation),
       Annotation.from_markup (freshAnn dt) t sent sp = .ok a → classifiedCurrent a)
  ∧ (∀ (dt : String) (sentences : List ((String × (Nat × Nat)) × List MarkedTarget))
       (x : Annotation),
       x ∈ ( ClinicalTextDocument.annotate dt sentences).1 → classifiedCurrent x) :=
  ⟨fun t sent sp dt a hw => from_markup_classifiedCurrent t sent sp dt a hw,
   fun dt sentences x hx =>
     annotateDocAux_classifiedCurrent dt sentences 0 [] (fun _ hy => absurd hy (by simp)) x hx⟩

/-- Concrete one-sentence input for the C10 witness: a negated UTI target. -/
def c10Sentences : List ((String × (Nat × Nat)) × List MarkedTarget) :=
  [(("he has not developed a urinary tract infection.", (10, 58)),
    [{ tag := { tagID := "1", category := ["urinary tract infection"], span := (23, 46) },
       modifiers := [{ category := ["definite_negated_existence"], span := (3, 10),
                       literal := "has not" }] }])]

/-- The annotation the pipeline produces on `c10Sentences`. -/
def c10Ann : Annotation :=
  { datetime := "d"
    id := "1"
    text := some "has not developed a urinary tract infection"
    sentence := some "he has not developed a urinary tract infection."
    sentence_num := some 0
    span_in_sentence := some (3, 46)
    span_in_document := some (13, 56)
    annotation_type := some "Evidence of UTI"
    markup_category := some "urinary tract infection"
    attributes := { assertion := "negated", temporality := "current", anatomy := [],
                    infection_type := none }
    modifier_categories := ["definite_negated_existence"]
    classification := some "Negated Evidence of UTI"
    annotator := some "hai_detect" }

/-- Witness for C10 on the concrete negated-UTI pipeline run. -/
theorem annotate_temporality_current_witness :
    (c10Ann ∈ ( ClinicalTextDocument.annotate "d" c10Sentences).1)
  ∧ classifiedCurrent c10Ann :=
  ⟨by decide,
   (annotate_temporality_current).2 "d" c10Sentences c10Ann (by decide)⟩

/-! ### The unrecognized-category error path -/

/-- The inner annotate loop splits over an append of target lists: if the
prefix raised, the error stands; otherwise the suffix continues from the
prefix's accumulated annotations. -/
lemma annotateTargetsAux_append (sent : String) (sp : Nat × Nat) (n : Nat) (dt : String) :
    ∀ (ts us : List MarkedTarget) (acc : List Annotation),
      annotateTargetsAux sent sp n dt (ts ++ us) acc =
        (match annotateTargetsAux sent sp n dt ts acc with
         | (acc2, none) => annotateTargetsAux sent sp n dt us acc2
         | (acc2, some e) => (acc2, some e)) := by
  intro ts
  induction ts with
  | nil => intro us acc; rfl
  | cons t ts ih =>
    intro us acc
    simp only [List.cons_append, annotateTargetsAux]
    rcases hE : Annotation.from_markup (freshAnn dt) t sent sp with e | a
    · rfl
    · exact ih us _

/-- C3 (amended): a markup category outside the fixed table makes
`from_markup` raise `NotImplementedError`; in `annotate` this error
propagates: the failing target is not appended, and neither the remaining
targets of the sentence nor the remaining sentences are processed, while
annotations appended before the failure remain on the document. -/
theorem annotate_unrecognized_aborts :
    (∀ (a : Annotation) (t : MarkedTarget) (sent : String) (sp : Nat × Nat) (c : String),
       t.tag.category.head? = some c → annotationTypes.lookup c = none →
       Annotation.from_markup a t sent sp = .error (unrecMsg c))
  ∧ (∀ (sent : String) (sp : Nat × Nat) (n : Nat) (dt : String)
       (ts post : List MarkedTarget) (t : MarkedTarget) (c : String)
       (acc acc2 : List Annotation),
       t.tag.category.head? = some c → annotationTypes.lookup c = none →
       annotateTargetsAux sent sp n dt ts acc = (acc2, none) →
       annotateTargetsAux sent sp n dt (ts ++ t :: post) acc = (acc2, some (unrecMsg c)))
  ∧ (∀ (dt : String) (s : String × (Nat × Nat)) (ts : List MarkedTarget)
       (rest : List ((String × (Nat × Nat)) × List MarkedTarget)) (n : Nat)
       (acc acc2 : List Annotation) (e : String),
       annotateTargetsAux s.1 s.2 n dt ts acc = (acc2, some e) →
       annotateDocAux dt ((s, ts) :: rest) n acc = (acc2, some e)) := by
  refine ⟨?_, ?_, ?_⟩
  · intro a t sent sp c hc hl
    unfold Annotation.from_markup
    simp only [hc, hl]
  · intro sent sp n dt ts post t c acc acc2 hc hl hpre
    rw [annotateTargetsAux_append sent sp n dt ts (t :: post) acc, hpre]
    simp only [annotateTargetsAux]
    have he : Annotation.from_markup (freshAnn dt) t sent sp = .error (unrecMsg c) := by
      unfold Annotation.from_markup
      simp only [hc, hl]
    simp only [he]
  · intro dt s ts rest n acc acc2 e hT
    simp only [annotateDocAux, hT]

/-- Counterexample for C3 as stated: on a document whose sentence carries an
unrecognized "sepsis" target followed by a recognized "pneumonia" target, the
annotate pass returns the propagated error with an empty annotation list,
although `from_markup` on the pneumonia target alone succeeds: the pipeline
does not continue with the remaining targets of the document. -/
theorem annotate_unrecognized_counterexample :
    ClinicalTextDocument.annotate "d"
        [(("sepsis and pneumonia.", (0, 21)),
          [{ tag := { tagID := "0", category := ["sepsis"], span := (0, 6) }, modifiers := [] },
           { tag := { tagID := "1", category := ["pneumonia"], span := (11, 20) },
             modifiers := [] }])]
      = ([], some (unrecMsg "sepsis"))
  ∧ isOkE ( Annotation.from_markup (freshAnn "d")
      { tag := { tagID := "1", category := ["pneumonia"], span := (11, 20) }, modifiers := [] }
      "sepsis and pneumonia." (0, 21)) = true := by
  constructor <;> decide

/-- Witness for the amended C3 at a concrete input. -/
theorem annotate_unrecognized_aborts_witness :
    Annotation.from_markup (freshAnn "d")
        { tag := { tagID := "0", category := ["sepsis"], span := (0, 6) }, modifiers := [] }
        "sepsis and pneumonia." (0, 21)
      = .error (unrecMsg "sepsis")
  ∧ annotateTargetsAux "sepsis and pneumonia." (0, 21) 0 "d"
        ([] ++ [{ tag := { tagID := "0", category := ["sepsis"], span := (0, 6) },
                  modifiers := [] }]) []
      = ([], some (unrecMsg "sepsis")) :=
  ⟨(annotate_unrecognized_aborts).1 (freshAnn "d")
      { tag := { tagID := "0", category := ["sepsis"], span := (0, 6) }, modifiers := [] }
      "sepsis and pneumonia." (0, 21) "sepsis" rfl rfl,
   (annotate_unrecognized_aborts).2.1 "sepsis and pneumonia." (0, 21) 0 "d" [] []
      { tag := { tagID := "0", category := ["sepsis"], span := (0, 6) }, modifiers := [] }
      "sepsis" [] [] rfl rfl rfl⟩

/-! ### The output record and the file write -/

/-- C8: the emitted output record carries the document-absolute span start
and end, the spanned text, the creation timestamp, and a class label equal to
`annotation_type`; the fine-grained `classification` attribute is not emitted:
the output is unchanged under any value of the cached classification. -/
theorem to_etree_output_fields (a : Annotation) (ty : String) (sd : Nat × Nat)
    (h1 : a.annotation_type = some ty) (h2 : a.span_in_document = some sd) :
    ( Annotation.to_etree a).1 =
      XmlNode.elem "annotation" [] none
        [ XmlNode.elem "mention" [("id", a.id)] none [],
          XmlNode.elem "annotator" [("id", "eHOST_2010")] a.annotator [],
          XmlNode.elem "span" [("start", toString sd.1), ("end", toString sd.2)] none [],
          XmlNode.elem "spannedText" [] a.text [],
          XmlNode.elem "creationDate" [] (some a.datetime) [] ]
  ∧ ( Annotation.to_etree a).2 =
      XmlNode.elem "classMention" [("id", a.id)] none
        [ XmlNode.elem "mentionClass" [("id", ty)] a.text [] ]
  ∧ ∀ c, Annotation.to_etree { a with classification := c } = Annotation.to_etree a := by
  unfold Annotation.to_etree
  refine ⟨?_, ?_, fun c => rfl⟩
  · simp [h2]
  · simp [h1]

/-- Witness for C8 on the concrete annotation of the UTI pipeline run. -/
theorem to_etree_output_fields_witness :
    ( Annotation.to_etree c10Ann).1 =
      XmlNode.elem "annotation" [] none
        [ XmlNode.elem "mention" [("id", c10Ann.id)] none [],
          XmlNode.elem "annotator" [("id", "eHOST_2010")] c10Ann.annotator [],
          XmlNode.elem "span" [("start", toString (13 : Nat)), ("end", toString (56 : Nat))]
            none [],
          XmlNode.elem "spannedText" [] c10Ann.text [],
          XmlNode.elem "creationDate" [] (some c10Ann.datetime) [] ]
  ∧ ( Annotation.to_etree c10Ann).2 =
      XmlNode.elem "classMention" [("id", c10Ann.id)] none
        [ XmlNode.elem "mentionClass" [("id", "Evidence of UTI")] c10Ann.text [] ]
  ∧ ∀ c, Annotation.to_etree { c10Ann with classification := c } =
      Annotation.to_etree c10Ann :=
  to_etree_output_fields c10Ann "Evidence of UTI" (13, 56) rfl rfl

/-- C9: `to_knowtator` on an `outdir` that is not an existing directory
raises `FileNotFoundError` and leaves the file system (and, the model being
functional, the document) untouched, never creating the directory; on an
existing directory it writes exactly one file, at the path built from the
document id under `outdir`. -/
theorem to_knowtator_spec (rpt : String) (anns : List Annotation) (outdir : String)
    (fs : FileSystem) :
    (fs.dirs.contains outdir = false →
       ClinicalTextDocument.to_knowtator rpt anns outdir fs =
         .error ("FileNotFoundError: " ++ outdir ++ " is not a directory"))
  ∧ (fs.dirs.contains outdir = true →
       ClinicalTextDocument.to_knowtator rpt anns outdir fs =
         .ok ({ dirs := fs.dirs,
                files := fs.files ++ [(outdir ++ "/" ++ rpt ++ ".txt.knowtator.xml",
                                       ClinicalTextDocument.to_etree rpt anns)] },
              outdir ++ "/" ++ rpt ++ ".txt.knowtator.xml")) := by
  constructor
  · intro h
    have h2 : outdir ∉ fs.dirs := by simpa using h
    unfold ClinicalTextDocument.to_knowtator
    simp [h2]
  · intro h
    have h2 : outdir ∈ fs.dirs := by simpa using h
    unfold ClinicalTextDocument.to_knowtator
    simp [h2]

/-- Witness for C9 on a concrete one-directory file system. -/
theorem to_knowtator_spec_witness :
    ( ClinicalTextDocument.to_knowtator "r1" [] "missing" ⟨["out"], []⟩ =
        .error ("FileNotFoundError: " ++ "missing" ++ " is not a directory"))
  ∧ ( ClinicalTextDocument.to_knowtator "r1" [] "out" ⟨["out"], []⟩ =
        .ok ({ dirs := ["out"],
               files := [] ++ [("out" ++ "/" ++ "r1" ++ ".txt.knowtator.xml",
                                ClinicalTextDocument.to_etree "r1" [])] },
             "out" ++ "/" ++ "r1" ++ ".txt.knowtator.xml")) :=
  ⟨(to_knowtator_spec "r1" [] "missing" ⟨["out"], []⟩).1 (by decide),
   (to_knowtator_spec "r1" [] "out" ⟨["out"], []⟩).2 (by decide)⟩

/-! ### Sentence splitting: grouping at termination words (C6) -/

/-- Invariant of the `split_sentences` loop: the emitted sentences partition
the word stream; every word but the last of a sentence is a non-terminator;
every non-final sentence ends at a terminator. -/
lemma splitSentencesAux_group :
    ∀ (ps : List (List Char × (Nat × Nat))) (idx : Nat) (curW : List (List Char))
      (curS : List (Nat × Nat)),
      (∀ w ∈ curW, endsSentence w = false) →
      (((splitSentencesAux ps idx curW curS).map (fun s => s.words)).flatten
          = curW ++ ps.map Prod.fst
      ∧ (∀ s ∈ splitSentencesAux ps idx curW curS, s.words ≠ [])
      ∧ (∀ s ∈ splitSentencesAux ps idx curW curS, ∀ w ∈ s.words.dropLast,
           endsSentence w = false)
      ∧ (∀ s ∈ (splitSentencesAux ps idx curW curS).dropLast,
           ∃ w, s.words.getLast? = some w ∧ endsSentence w = true)) := by
  intro ps
  induction ps with
  | nil =>
    intro idx curW curS hcur
    by_cases hW : curW.isEmpty
    · have hnil : curW = [] := by simpa using hW
      subst hnil
      simp [splitSentencesAux]
    · have hW2 : curW.isEmpty = false := by simpa using hW
      simp only [splitSentencesAux, hW2, Bool.false_eq_true, if_false]
      refine ⟨by simp [mkSentence], ?_, ?_, ?_⟩
      · intro s hs
        rcases List.mem_singleton.mp hs with rfl
        simpa [mkSentence] using hW
      · intro s hs
        rcases List.mem_singleton.mp hs with rfl
        intro w hw
        exact hcur w (List.Sublist.subset (List.dropLast_sublist _) hw)
      · intro s hs
        simp at hs
  | cons p rest ih =>
    intro idx curW curS hcur
    obtain ⟨w, sp⟩ := p
    by_cases hE : endsSentence w
    · simp only [splitSentencesAux, hE, if_true]
      obtain ⟨ih1, ih2, ih3, ih4⟩ := ih (idx + 1) [] [] (by intro x hx; cases hx)
      refine ⟨?_, ?_, ?_, ?_⟩
      · simp only [List.map_cons, List.flatten_cons, mkSentence, ih1]
        simp
      · intro s hs
        rcases List.mem_cons.mp hs with rfl | hs2
        · simp [mkSentence]
        · exact ih2 s hs2
      · intro s hs
        rcases List.mem_cons.mp hs with rfl | hs2
        · intro x hx
          simp only [mkSentence] at hx
          rw [List.dropLast_concat] at hx
          exact hcur x hx
        · exact ih3 s hs2
      · cases hT : splitSentencesAux rest (idx + 1) [] [] with
        | nil =>
          intro s hs
          simp at hs
        | cons s2 rest2 =>
          intro s hs
          rw [List.dropLast_cons₂] at hs
          rcases List.mem_cons.mp hs with rfl | hs2
          · refine ⟨w, ?_, hE⟩
            simp [mkSentence]
          · apply ih4
            rw [hT]
            exact hs2
    · have hE2 : endsSentence w = false := by simpa using hE
      simp only [splitSentencesAux, hE2, Bool.false_eq_true, if_false]
      have hcur2 : ∀ x ∈ curW ++ [w], endsSentence x = false := by
        intro x hx
        rcases List.mem_append.mp hx with hx2 | hx2
        · exact hcur x hx2
        · rcases List.mem_singleton.mp hx2 with rfl
          exact hE2
      obtain ⟨ih1, ih2, ih3, ih4⟩ := ih idx (curW ++ [w]) (curS ++ [sp]) hcur2
      refine ⟨?_, ih2, ih3, ih4⟩
      rw [ih1]
      simp

/-- C6: `split_sentences` ends a sentence exactly at tokens whose last
character is a termination point and that are not exception words: the
sentences partition the token stream of the text, no sentence is empty, no
word before the last of a sentence is a terminator, every non-final sentence
ends at a terminator (the trailing buffer is flushed as one final sentence),
and the empty text yields the empty sentence sequence. -/
theorem split_sentences_boundaries (text : List Char) (spans : List (Nat × Nat))
    (h : (pySplit text).length ≤ spans.length) :
    (( ClinicalTextDocument.split_sentences text spans).map (fun s => s.words)).flatten
        = pySplit text
  ∧ (∀ s ∈ ClinicalTextDocument.split_sentences text spans, s.words ≠ [])
  ∧ (∀ s ∈ ClinicalTextDocument.split_sentences text spans,
       ∀ w ∈ s.words.dropLast, endsSentence w = false)
  ∧ (∀ s ∈ ( ClinicalTextDocument.split_sentences text spans).dropLast,
       ∃ w, s.words.getLast? = some w ∧ endsSentence w = true)
  ∧ (∀ spans2, ClinicalTextDocument.split_sentences [] spans2 = []) := by
  obtain ⟨h1, h2, h3, h4⟩ := splitSentencesAux_group ((pySplit text).zip spans) 0 [] []
    (by intro x hx; cases hx)
  refine ⟨?_, h2, h3, h4, fun spans2 => rfl⟩
  unfold ClinicalTextDocument.split_sentences
  rw [h1, List.nil_append, List.map_fst_zip _ _ h]

/-- Witness for C6 at a concrete two-sentence text. -/
theorem split_sentences_boundaries_witness :
    ((pySplit "he is ill. bye".data).length ≤
        ([(0, 2), (3, 5), (6, 10), (11, 14)] : List (Nat × Nat)).length)
  ∧ ((( ClinicalTextDocument.split_sentences "he is ill. bye".data
          [(0, 2), (3, 5), (6, 10), (11, 14)]).map (fun s => s.words)).flatten
        = pySplit "he is ill. bye".data
     ∧ (∀ s ∈ ClinicalTextDocument.split_sentences "he is ill. bye".data
          [(0, 2), (3, 5), (6, 10), (11, 14)], s.words ≠ [])
     ∧ (∀ s ∈ ClinicalTextDocument.split_sentences "he is ill. bye".data
          [(0, 2), (3, 5), (6, 10), (11, 14)],
          ∀ w ∈ s.words.dropLast, endsSentence w = false)
     ∧ (∀ s ∈ ( ClinicalTextDocument.split_sentences "he is ill. bye".data
          [(0, 2), (3, 5), (6, 10), (11, 14)]).dropLast,
          ∃ w, s.words.getLast? = some w ∧ endsSentence w = true)
     ∧ (∀ spans2, ClinicalTextDocument.split_sentences [] spans2 = [])) :=
  ⟨by decide, split_sentences_boundaries "he is ill. bye".data
      [(0, 2), (3, 5), (6, 10), (11, 14)] (by decide)⟩

/-! ### Span alignment between the raw text and the sentence records (C5) -/

lemma drop_tail (t : List Char) (i : Nat) (c : Char) (cs : List Char)
    (h : t.drop i = c :: cs) : t.drop (i + 1) = cs := by
  rw [← List.tail_drop, h]
  rfl

lemma take_reverse_append (acc rest : List Char) :
    (acc.reverse ++ rest).take acc.length = acc.reverse := by
  rw [← List.length_reverse acc, List.take_left]

/-- Correctness of the span tokenizer against Python `split`: slicing the
original text at each produced span yields exactly the corresponding token.
The second conjunct carries the in-token scan state: the accumulator holds,
reversed, the characters of the original text from the token start `s` up to
the cursor `i`. -/
lemma spanTokAux_slices (t : List Char) :
    ∀ (l : List Char) (i : Nat),
      (t.drop i = l →
        (spanTokAux l i none).map (sliceL t) = pySplitAux l [])
      ∧ (∀ (s : Nat) (acc : List Char), acc ≠ [] → i = s + acc.length →
          t.drop s = acc.reverse ++ l →
          (spanTokAux l i (some s)).map (sliceL t) = pySplitAux l acc) := by
  intro l
  induction l with
  | nil =>
    intro i
    constructor
    · intro h
      rfl
    · intro s acc hne hi hs
      have hisE : acc.isEmpty = false := by simpa using hne
      simp only [spanTokAux, pySplitAux, hisE, Bool.false_eq_true, if_false,
        List.map_cons, List.map_nil]
      congr 1
      unfold sliceL
      rw [hs, hi, Nat.add_sub_cancel_left, List.append_nil,
        ← List.length_reverse acc, List.take_length]
  | cons c cs ihcs =>
    intro i
    by_cases hc : isSpace c
    · constructor
      · intro h
        have h2 : t.drop (i + 1) = cs := drop_tail t i c cs h
        simp only [spanTokAux, pySplitAux, hc, if_true, List.isEmpty_nil, ite_true]
        exact (ihcs (i + 1)).1 h2
      · intro s acc hne hi hs
        have hisE : acc.isEmpty = false := by simpa using hne
        have hdi : t.drop i = c :: cs := by
          have hd : t.drop i = (t.drop s).drop acc.length := by
            rw [List.drop_drop, hi, Nat.add_comm]
          rw [hd, hs, ← List.length_reverse acc, List.drop_left]
        have h2 : t.drop (i + 1) = cs := drop_tail t i c cs hdi
        simp only [spanTokAux, pySplitAux, hc, hisE, Bool.false_eq_true, if_true, if_false,
          List.map_cons]
        congr 1
        · unfold sliceL
          rw [hs, hi, Nat.add_sub_cancel_left, take_reverse_append]
        · exact (ihcs (i + 1)).1 h2
    · have hc2 : isSpace c = false := by simpa using hc
      constructor
      · intro h
        simp only [spanTokAux, pySplitAux, hc2, Bool.false_eq_true, if_false]
        refine (ihcs (i + 1)).2 i [c] (by simp) (by simp) ?_
        simpa using h
      · intro s acc hne hi hs
        simp only [spanTokAux, pySplitAux, hc2, Bool.false_eq_true, if_false]
        refine (ihcs (i + 1)).2 s (c :: acc) (by simp) (by simp [hi]; omega) ?_
        rw [hs]
        simp

/-- Slicing the original text at the spans of `get_text_spans` yields exactly
the whitespace tokens of the text. -/
lemma get_text_spans_slices (t : List Char) :
    ( ClinicalTextDocument.get_text_spans t).map (sliceL t) = pySplit t :=
  (spanTokAux_slices t t 0).1 (by simp)

/-- Lower-casing never turns a character into or out of whitespace. -/
lemma isSpace_asciiLower (c : Char) : isSpace (asciiLower c) = isSpace c := by
  unfold asciiLower
  split <;> rfl

/-- `split()` commutes with character-wise lower-casing. -/
lemma pySplitAux_map_lower :
    ∀ (l acc : List Char),
      pySplitAux (l.map asciiLower) (acc.map asciiLower)
        = (pySplitAux l acc).map (List.map asciiLower) := by
  intro l
  induction l with
  | nil =>
    intro acc
    by_cases h : acc.isEmpty
    · have hnil : acc = [] := by simpa using h
      subst hnil
      rfl
    · have h2 : acc.isEmpty = false := by simpa using h
      have h3 : (acc.map asciiLower).isEmpty = false := by
        cases acc
        · simp at h2
        · rfl
      simp [pySplitAux, h2, h3, List.map_reverse]
  | cons c cs ih =>
    intro acc
    have hsp := isSpace_asciiLower c
    by_cases hc : isSpace c
    · by_cases ha : acc.isEmpty
      · have hnil : acc = [] := by simpa using ha
        subst hnil
        simp only [List.map_cons, List.map_nil, pySplitAux, hsp, hc, if_true,
          List.isEmpty_nil, ite_true]
        exact ih []
      · have h2 : acc.isEmpty = false := by simpa using ha
        have h3 : (acc.map asciiLower).isEmpty = false := by
          cases acc
          · simp at h2
          · rfl
        have hih := ih []
        simp only [List.map_nil] at hih
        simp [pySplitAux, hsp, hc, h2, h3, List.map_reverse, hih]
    · have hc2 : isSpace c = false := by simpa using hc
      simp only [List.map_cons, pySplitAux, hsp, hc2, Bool.false_eq_true, if_false]
      exact ih (c :: acc)

/-- Tokens produced by `split()` are non-empty and whitespace-free. -/
lemma pySplitAux_tokens :
    ∀ (l acc : List Char),
      (∀ c ∈ acc, isSpace c = false) →
      ∀ w ∈ pySplitAux l acc, w ≠ [] ∧ ∀ c ∈ w, isSpace c = false := by
  intro l
  induction l with
  | nil =>
    intro acc hacc w hw
    by_cases h : acc.isEmpty
    · simp [pySplitAux, h] at hw
    · have h2 : acc.isEmpty = false := by simpa using h
      simp only [pySplitAux, h2, Bool.false_eq_true, if_false] at hw
      rcases List.mem_singleton.mp hw with rfl
      refine ⟨by simpa using h, ?_⟩
      intro c hc
      exact hacc c (List.mem_reverse.mp hc)
  | cons c cs ih =>
    intro acc hacc w hw
    by_cases hc : isSpace c
    · by_cases ha : acc.isEmpty
      · have hnil : acc = [] := by simpa using ha
        subst hnil
        simp only [pySplitAux, hc, if_true, List.isEmpty_nil, ite_true] at hw
        exact ih [] (by intro x hx; cases hx) w hw
      · have h2 : acc.isEmpty = false := by simpa using ha
        simp only [pySplitAux, hc, if_true, h2, Bool.false_eq_true, if_false] at hw
        rcases List.mem_cons.mp hw with rfl | hw2
        · refine ⟨by simpa using ha, ?_⟩
          intro x hx
          exact hacc x (List.mem_reverse.mp hx)
        · exact ih [] (by intro x hx; cases hx) w hw2
    · have hc2 : isSpace c = false := by simpa using hc
      simp only [pySplitAux, hc2, Bool.false_eq_true, if_false] at hw
      refine ih (c :: acc) ?_ w hw
      intro x hx
      rcases List.mem_cons.mp hx with rfl | hx2
      · exact hc2
      · exact hacc x hx2

/-- Scanning a whitespace-free block just accumulates it. -/
lemma pySplitAux_append_nonspace :
    ∀ (w l acc : List Char),
      (∀ c ∈ w, isSpace c = false) →
      pySplitAux (w ++ l) acc = pySplitAux l (w.reverse ++ acc) := by
  intro w
  induction w with
  | nil => intro l acc h; simp
  | cons c w2 ih =>
    intro l acc h
    have hc : isSpace c = false := h c (List.mem_cons_self c w2)
    simp only [List.cons_append, pySplitAux, hc, Bool.false_eq_true, if_false, List.append_eq]
    rw [ih l (c :: acc) (fun x hx => h x (List.mem_cons_of_mem c hx))]
    simp

/-- `split()` is a retraction of the single-space `join` on lists of
non-empty, whitespace-free tokens. -/
lemma pySplit_joinSpace :
    ∀ (ws : List (List Char)),
      (∀ w ∈ ws, w ≠ [] ∧ ∀ c ∈ w, isSpace c = false) →
      pySplit (joinSpace ws) = ws := by
  intro ws
  induction ws with
  | nil => intro h; rfl
  | cons w ws2 ih =>
    intro h
    obtain ⟨hne, hnsp⟩ := h w (List.mem_cons_self w ws2)
    have hrevne : (w.reverse ++ []).isEmpty = false := by
      simp [List.isEmpty_iff, hne]
    cases ws2 with
    | nil =>
      show pySplitAux w [] = [w]
      have happ := pySplitAux_append_nonspace w [] [] hnsp
      rw [List.append_nil] at happ
      rw [happ]
      simp only [pySplitAux, hrevne, Bool.false_eq_true, if_false]
      simp
    | cons w2 ws3 =>
      show pySplitAux (w ++ ' ' :: joinSpace (w2 :: ws3)) [] = w :: w2 :: ws3
      rw [pySplitAux_append_nonspace w (' ' :: joinSpace (w2 :: ws3)) [] hnsp]
      have hsp : isSpace ' ' = true := rfl
      simp only [pySplitAux, hsp, if_true, hrevne, Bool.false_eq_true, if_false]
      rw [show pySplitAux (joinSpace (w2 :: ws3)) [] = pySplit (joinSpace (w2 :: ws3)) from rfl]
      rw [ih (fun x hx => h x (List.mem_cons_of_mem w hx))]
      simp

lemma pySplit_map_lower (l : List Char) :
    pySplit (l.map asciiLower) = (pySplit l).map (List.map asciiLower) := by
  have h := pySplitAux_map_lower l []
  simpa using h

/-- The word stream of the preprocessed text is the lower-cased word stream
of the raw text. -/
lemma pySplit_preprocess (raw : List Char) :
    pySplit ( ClinicalTextDocument.preprocess raw)
      = (pySplit raw).map (List.map asciiLower) := by
  unfold ClinicalTextDocument.preprocess
  rw [pySplit_joinSpace, pySplit_map_lower]
  intro w hw
  exact pySplitAux_tokens (raw.map asciiLower) [] (by intro c hc; cases hc) w hw

lemma zip_concat {α β : Type} :
    ∀ (xs : List α) (ys : List β) (x : α) (y : β),
      xs.length = ys.length →
      (xs ++ [x]).zip (ys ++ [y]) = xs.zip ys ++ [(x, y)] := by
  intro xs
  induction xs with
  | nil =>
    intro ys x y h
    cases ys
    · rfl
    · simp at h
  | cons a as ih =>
    intro ys x y h
    cases ys with
    | nil => simp at h
    | cons b bs =>
      simp only [List.cons_append, List.zip_cons_cons]
      rw [ih bs x y (by simpa using h)]

/-- Invariant of the `split_sentences` loop for any property of the
word-span pairs fed to it: the emitted sentences keep words and spans
index-aligned, every kept pair comes from the input stream, and the sentence
text is the single-space join of its words. -/
lemma splitSentencesAux_pairs (Q : List Char → (Nat × Nat) → Prop) :
    ∀ (ps : List (List Char × (Nat × Nat))) (idx : Nat) (curW : List (List Char))
      (curS : List (Nat × Nat)),
      curW.length = curS.length →
      (∀ p ∈ curW.zip curS, Q p.1 p.2) →
      (∀ p ∈ ps, Q p.1 p.2) →
      ∀ s ∈ splitSentencesAux ps idx curW curS,
        s.words.length = s.word_spans.length
        ∧ (∀ p ∈ s.words.zip s.word_spans, Q p.1 p.2)
        ∧ s.text = joinSpace s.words := by
  intro ps
  induction ps with
  | nil =>
    intro idx curW curS hlen hcur hps s hs
    by_cases hW : curW.isEmpty
    · have hnil : curW = [] := by simpa using hW
      subst hnil
      simp [splitSentencesAux] at hs
    · have hW2 : curW.isEmpty = false := by simpa using hW
      simp only [splitSentencesAux, hW2, Bool.false_eq_true, if_false] at hs
      rcases List.mem_singleton.mp hs with rfl
      exact ⟨hlen, hcur, rfl⟩
  | cons p rest ih =>
    intro idx curW curS hlen hcur hps s hs
    obtain ⟨w, sp⟩ := p
    have hQw : Q w sp := hps (w, sp) (List.mem_cons_self _ _)
    have hlen2 : (curW ++ [w]).length = (curS ++ [sp]).length := by
      simp [hlen]
    have hcur2 : ∀ q ∈ (curW ++ [w]).zip (curS ++ [sp]), Q q.1 q.2 := by
      rw [zip_concat curW curS w sp hlen]
      intro q hq
      rcases List.mem_append.mp hq with hq2 | hq2
      · exact hcur q hq2
      · rcases List.mem_singleton.mp hq2 with rfl
        exact hQw
    have hrest : ∀ q ∈ rest, Q q.1 q.2 := fun q hq => hps q (List.mem_cons_of_mem _ hq)
    by_cases hE : endsSentence w
    · simp only [splitSentencesAux, hE, if_true] at hs
      rcases List.mem_cons.mp hs with rfl | hs2
      · exact ⟨hlen2, hcur2, rfl⟩
      · exact ih (idx + 1) [] [] rfl (by intro q hq; cases hq) hrest s hs2
    · have hE2 : endsSentence w = false := by simpa using hE
      simp only [splitSentencesAux, hE2, Bool.false_eq_true, if_false] at hs
      exact ih idx (curW ++ [w]) (curS ++ [sp]) hlen2 hcur2 hrest s hs

lemma mem_zip_map {α β : Type} (f : β → α) :
    ∀ (xs : List β) (p : α × β), p ∈ (xs.map f).zip xs → p.1 = f p.2 := by
  intro xs
  induction xs with
  | nil => intro p hp; cases hp
  | cons x xs ih =>
    intro p hp
    simp only [List.map_cons, List.zip_cons_cons] at hp
    rcases List.mem_cons.mp hp with rfl | hp2
    · rfl
    · exact ih p hp2

/-- C5 (amended): slicing the raw text at a stored token span yields the
original-case token, whose lower-casing is exactly the stored word; the
stored sentence text is the single-space join of those lower-cased words
(not a verbatim slice of the raw text). -/
theorem segmenter_span_alignment (raw : List Char) (id : String) (s : Sentence)
    (hs : s ∈ (mkClinicalTextDocument raw id).sentences) :
    s.words.length = s.word_spans.length
  ∧ (∀ w sp, (w, sp) ∈ s.words.zip s.word_spans →
      (sliceL raw sp).map asciiLower = w)
  ∧ s.text = joinSpace s.words := by
  have hmap : pySplit ( ClinicalTextDocument.preprocess raw)
      = ( ClinicalTextDocument.get_text_spans raw).map
          (fun sp => (sliceL raw sp).map asciiLower) := by
    rw [pySplit_preprocess, ← get_text_spans_slices raw, List.map_map]
    rfl
  have hin : ∀ p ∈ (pySplit ( ClinicalTextDocument.preprocess raw)).zip
      ( ClinicalTextDocument.get_text_spans raw),
      (sliceL raw p.2).map asciiLower = p.1 := by
    intro p hp
    rw [hmap] at hp
    exact (mem_zip_map (fun sp => (sliceL raw sp).map asciiLower)
      ( ClinicalTextDocument.get_text_spans raw) p hp).symm
  have h := splitSentencesAux_pairs (fun w sp => (sliceL raw sp).map asciiLower = w)
    ((pySplit ( ClinicalTextDocument.preprocess raw)).zip
      ( ClinicalTextDocument.get_text_spans raw))
    0 [] [] rfl (by intro q hq; cases hq) hin s hs
  exact ⟨h.1, fun w sp hw => h.2.1 (w, sp) hw, h.2.2⟩

/-- Counterexample for C5 as stated: on the raw text "He has pneumonia." the
Segmenter stores the lower-cased word "he" for the token span (0, 2), but
slicing the raw text at (0, 2) yields "He", which differs from the stored
token string. -/
theorem segmenter_span_alignment_counterexample :
    (( mkClinicalTextDocument "He has pneumonia.".data "r").sentences.map
        (fun s => (s.words.head?, s.word_spans.head?)))
      = [(some "he".data, some (0, 2))]
  ∧ sliceL "He has pneumonia.".data (0, 2) = "He".data
  ∧ "He".data ≠ "he".data := by
  refine ⟨by decide, by decide, by decide⟩

/-- The sentence record the Segmenter produces on "He has pneumonia.". -/
def c5Sentence : Sentence :=
  { idx := 0
    text := "he has pneumonia.".data
    words := ["he".data, "has".data, "pneumonia.".data]
    word_spans := [(0, 2), (3, 6), (7, 17)]
    span := (0, 17) }

/-- Witness for the amended C5 on the concrete document. -/
theorem segmenter_span_alignment_witness :
    (c5Sentence ∈ (mkClinicalTextDocument "He has pneumonia.".data "r").sentences)
  ∧ (c5Sentence.words.length = c5Sentence.word_spans.length
     ∧ (∀ w sp, (w, sp) ∈ c5Sentence.words.zip c5Sentence.word_spans →
         (sliceL "He has pneumonia.".data sp).map asciiLower = w)
     ∧ c5Sentence.text = joinSpace c5Sentence.words) :=
  ⟨by decide,
   segmenter_span_alignment "He has pneumonia.".data "r" c5Sentence (by decide)⟩
